import Mathlib

/-!
Verification of the FTDB dump crawler (`ftdbdump.py`).

The crawler downloads all construction kits from the FTDB HTTP JSON API,
normalizes each raw ticket record, resolves each kit's parts list, and
assembles a single `\x7bkits, parts\x7d` snapshot document which the main
script serializes with `json.dump(result, f, sort_keys=True, indent=2)`.

The embedding models Python values (`PyVal`), Python `dict` semantics
(insertion-ordered association lists with overwrite-in-place updates), the
network as a `World` mapping each request the crawler can make to either a
transport-level failure or a decoded JSON response, and the crawl itself as
a function into a writer/except pair `M α = List Request × Except FetchErr α`
recording the requests actually performed and the outcome.
-/

/-- A Python `dict` key as used by this program: ticket ids (`int`) and
field/article-number names (`str`).  Other key types never occur. -/
inductive PyKey where
  | int (i : Int)
  | str (s : String)
deriving DecidableEq, Repr

/-- A Python/JSON value as used by this program: `None`, `int`, `str`,
`list`, and insertion-ordered `dict`.  (Floats, booleans and other types
never occur in the crawler's data.) -/
inductive PyVal where
  | none
  | int (i : Int)
  | str (s : String)
  | list (xs : List PyVal)
  | dict (es : List (PyKey × PyVal))
deriving Repr

/-- The entry list of a Python dict. -/
abbrev PyDict := List (PyKey × PyVal)

/-- Python `d.get(k)` restricted to `some`/`none`: first (only) binding. -/
def dictGet? (es : PyDict) (k : PyKey) : Option PyVal :=
  match es with
  | [] => Option.none
  | (k2, v) :: rest => if k2 = k then some v else dictGet? rest k

/-- Python `d.get(k, dflt)` / `d[k]` with a default for the missing case. -/
def dictGetD (es : PyDict) (k : PyKey) (dflt : PyVal) : PyVal :=
  (dictGet? es k).getD dflt

/-- Python `d[k] = v`: overwrite in place if the key exists (keeping its
position, as CPython dicts do), else append. -/
def dictInsert (es : PyDict) (k : PyKey) (v : PyVal) : PyDict :=
  match es with
  | [] => [(k, v)]
  | (k2, v2) :: rest =>
      if k2 = k then (k2, v) :: rest else (k2, v2) :: dictInsert rest k v

/-- Python `d.pop(k, dflt)`: the removed value (or default) and the
remaining dict. -/
def dictPop (es : PyDict) (k : PyKey) (dflt : PyVal) : PyVal × PyDict :=
  match es with
  | [] => (dflt, [])
  | (k2, v) :: rest =>
      if k2 = k then (v, rest)
      else
        let r := dictPop rest k dflt
        (r.1, (k2, v) :: r.2)

/-- Python `k in d`. -/
def dictContains (es : PyDict) (k : PyKey) : Bool :=
  (dictGet? es k).isSome

/-- Python `d.keys()` in insertion order. -/
def dictKeys (es : PyDict) : List PyKey :=
  es.map Prod.fst

/-- Python `dict(pairs)`: left-to-right insertion, later duplicates
overwrite earlier ones. -/
def pyDictOf (ps : List (PyKey × PyVal)) : PyDict :=
  ps.foldl (fun acc kv => dictInsert acc kv.1 kv.2) []

/-- View a `PyVal` known to be a dict as its entry list.  The crawler only
applies this to values it created as dicts; other shapes would be a Python
`TypeError`/`KeyError` and never occur. -/
def asDict : PyVal → PyDict
  | PyVal.dict es => es
  | _ => []

/-- Use a `PyVal` as a dict key, as Python does when hashing it.  Only
`int` and `str` values are ever used as keys by this program (unhashable
values would raise `TypeError`). -/
def asKey : PyVal → PyKey
  | PyVal.int i => PyKey.int i
  | PyVal.str s => PyKey.str s
  | _ => PyKey.str ""

/-- One step of Python `str.replace`: with fuel at least the length of the
input, replaces every non-overlapping occurrence of `pat` (nonempty in all
uses) by `rep`, scanning left to right.  Fuel decreases by one per
consumed character, so `fuel = input length` always suffices. -/
def replaceF (pat rep : List Char) : Nat → List Char → List Char
  | _, [] => []
  | 0, l => l
  | Nat.succ n, c :: rest =>
      if pat.isPrefixOf (c :: rest)
      then rep ++ replaceF pat rep n (rest.drop (pat.length - 1))
      else c :: replaceF pat rep n rest

/-- Python `s.replace(pat, rep)` (all occurrences, left to right). -/
def pyReplace (s pat rep : String) : String :=
  String.mk (replaceF pat.data rep.data s.data.length s.data)

/-- The raw `ft_article_nos` payload: either the literal string `"[]"`
(which the code special-cases), or any other JSON-encoded string carrying a
sequence of `[number, year]` pairs whose number may be `null`.  The second
layer of JSON decoding performed by `json.loads` is modelled by carrying
the decoded pair list directly. -/
inductive ArtNos where
  | emptyLit
  | pairs (ps : List (Option String × String))
deriving Repr

/-- A raw API ticket record, holding exactly the fields `ftdbdump.py`
reads.  `ticket_id` is the integer ticket identifier; `ft_cat_all` is the
record's collection of category codes (the code tests `'661' not in
d['ft_cat_all']`); `ft_count` is modelled as the already-decoded integer
(the code applies `int(...)` to the truthy raw value); `ft_weight` is an
uninterpreted pass-through value modelled as an optional string. -/
structure RawRecord where
  ticket_id : Int
  createdUTC : String
  title : String
  ft_article_nos : Option ArtNos := Option.none
  ft_variant_uuid : Option String := Option.none
  ft_icon : Option String := Option.none
  ft_cat_all : List String := []
  ft_weight : Option String := Option.none
  ft_count : Option Int := Option.none
deriving Repr

/-- A Python optional string as a `PyVal` (`None` or `str`). -/
def optStr : Option String → PyVal
  | Option.none => PyVal.none
  | some s => PyVal.str s

/-- `_parse_article_nos`: `\x7b\x7d` if the raw field is missing, `None`, or the
literal string `"[]"`; otherwise `dict([(k or '', v) for k, v in
json.loads(...)])` — a `None` number key is coerced to `''`. -/
def parse_article_nos (d : RawRecord) : PyDict :=
  match d.ft_article_nos with
  | Option.none => []
  | some ArtNos.emptyLit => []
  | some (ArtNos.pairs ps) =>
      pyDictOf (ps.map (fun p => (PyKey.str (p.1.getD ""), PyVal.str p.2)))

/-- `_parse_common`: the canonical common-fields dict built from a raw
record, in the source's insertion order.  Note that `thumbnail_url` is
always assigned: `'...'.format(icon) if icon else None`. -/
def parse_common (d : RawRecord) : PyDict :=
  let url := "https://ft-datenbank.de/api/ticket/" ++ toString d.ticket_id
  [ (PyKey.str "id", PyVal.int d.ticket_id),
    (PyKey.str "created", PyVal.str (pyReplace d.createdUTC " " "T")),
    (PyKey.str "title", PyVal.str d.title),
    (PyKey.str "article_numbers", PyVal.dict (parse_article_nos d)),
    (PyKey.str "uuid", optStr d.ft_variant_uuid),
    (PyKey.str "url_api", PyVal.str url),
    (PyKey.str "url", PyVal.str (pyReplace url "/api" "")),
    (PyKey.str "thumbnail_url",
      match d.ft_icon with
      | some icon =>
          if icon ≠ "" then
            PyVal.str ("https://ft-datenbank.de/thumbnail/" ++ icon)
          else PyVal.none
      | Option.none => PyVal.none) ]

/-- The pagination envelope `\x7bstatus, cPages, cTotal, results\x7d` common to
all endpoints; `results` is a record list for listing/parts pages and a
single record for the ticket-detail endpoint. -/
structure Resp (α : Type) where
  status : String
  cPages : Nat
  cTotal : Nat
  results : α

/-- `parse_construction_kit_ids`: ticket ids of the page's records whose
category field does not contain `'661'` (fischertip kits are omitted). -/
def parse_construction_kit_ids (resp : Resp (List RawRecord)) : List Int :=
  (resp.results.filter (fun d => !(d.ft_cat_all.contains "661"))).map
    (fun d => d.ticket_id)

/-- The body of `parse_parts` for a single record: common fields plus
`weight` (pass-through) and `count` (`int(cnt) if cnt else None`). -/
def parse_part_record (d : RawRecord) : PyDict :=
  let p := dictInsert (parse_common d) (PyKey.str "weight") (optStr d.ft_weight)
  dictInsert p (PyKey.str "count")
    (match d.ft_count with
     | some c => if c ≠ 0 then PyVal.int c else PyVal.none
     | Option.none => PyVal.none)

/-- `parse_parts`: the part dicts of one parts page. -/
def parse_parts (resp : Resp (List RawRecord)) : List PyDict :=
  resp.results.map parse_part_record

def recNullArt : RawRecord where
  ticket_id := 1
  createdUTC := ""
  title := ""
  ft_article_nos := some (ArtNos.pairs [(Option.none, "1980")])


/-- The outcome the network gives for one request: a transport-level
failure (`requests` raising before a JSON body is decoded) or a decoded
response body. -/
inductive Outcome (α : Type) where
  | transport
  | response (resp : α)

/-- The requests `download_construction_kits` can issue, identifying the
URL it builds: the kit-listing base query, a numbered kit-listing page, a
ticket-detail fetch, the parts-list total probe `ft-partslist/<id>`, and a
numbered parts-list page.  The parts endpoints are addressed by the dict
key under which the kit is stored (the code iterates
`construction_kits.keys()`). -/
inductive Request where
  | listingBase
  | listingPage (i : Nat)
  | detail (t : Int)
  | partsProbe (k : PyKey)
  | partsPage (k : PyKey) (i : Nat)
deriving DecidableEq, Repr

/-- The two failure kinds of `_fetch_json`: a transport failure of the
underlying GET/JSON decode, and `Exception('Unexpected result "%s"')`
carrying the non-`"OK"` status value. -/
inductive FetchErr where
  | transport (r : Request)
  | badStatus (s : String)
deriving DecidableEq, Repr

/-- The remote API as the crawler sees it: one outcome per request. -/
structure World where
  listingBase : Outcome (Resp (List RawRecord))
  listingPage : Nat → Outcome (Resp (List RawRecord))
  detail : Int → Outcome (Resp RawRecord)
  partsProbe : PyKey → Outcome (Resp (List RawRecord))
  partsPage : PyKey → Nat → Outcome (Resp (List RawRecord))

/-- A crawl computation: the requests performed, in order, and either the
value produced or the first error raised. -/
def M (α : Type) : Type := List Request × Except FetchErr α

/-- Return without touching the network. -/
def mPure {α : Type} (a : α) : M α := ([], Except.ok a)

/-- Sequencing: an error stops the computation (no further requests). -/
def mBind {α β : Type} (x : M α) (f : α → M β) : M β :=
  match x.2 with
  | Except.error e => (x.1, Except.error e)
  | Except.ok a => ((x.1 ++ (f a).1, (f a).2))

/-- `_fetch_json` on one request whose network outcome is `o`: a transport
failure propagates as an exception; a decoded body raises
`Exception('Unexpected result "%s"' % dct['status'])` unless
`dct['status'] == 'OK'`. -/
def fetch_json {α : Type} (r : Request) (o : Outcome (Resp α)) : M (Resp α) :=
  match o with
  | Outcome.transport => ([r], Except.error (FetchErr.transport r))
  | Outcome.response d =>
      if d.status ≠ "OK" then ([r], Except.error (FetchErr.badStatus d.status))
      else ([r], Except.ok d)

/-- The error (if any) that fetching a given request in world `w` raises. -/
def outcomeErr {α : Type} (r : Request) (o : Outcome (Resp α)) : Option FetchErr :=
  match o with
  | Outcome.transport => some (FetchErr.transport r)
  | Outcome.response d =>
      if d.status ≠ "OK" then some (FetchErr.badStatus d.status) else Option.none

/-- `outcomeErr` dispatched over the world. -/
def reqErr (w : World) : Request → Option FetchErr
  | Request.listingBase => outcomeErr Request.listingBase w.listingBase
  | Request.listingPage i => outcomeErr (Request.listingPage i) (w.listingPage i)
  | Request.detail t => outcomeErr (Request.detail t) (w.detail t)
  | Request.partsProbe k => outcomeErr (Request.partsProbe k) (w.partsProbe k)
  | Request.partsPage k i => outcomeErr (Request.partsPage k i) (w.partsPage k i)

/-- `get_construction_kit`: fetch the ticket detail, normalize its
`results` record, and set `parts` to an empty dict. -/
def get_construction_kit (w : World) (t : Int) : M PyDict :=
  mBind (fetch_json (Request.detail t) (w.detail t)) (fun d =>
    mPure (dictInsert (parse_common d.results) (PyKey.str "parts") (PyVal.dict [])))

/-- The inner loop of the listing phase: `for ticket_id in
parse_construction_kit_ids(dct): ... construction_kits[ck['id']] = ck`. -/
def kitIdsLoop (w : World) (kits : PyDict) : List Int → M PyDict
  | [] => mPure kits
  | t :: ts =>
      mBind (get_construction_kit w t) (fun ck =>
        kitIdsLoop w
          (dictInsert kits (asKey (dictGetD ck (PyKey.str "id") PyVal.none))
            (PyVal.dict ck)) ts)

/-- The listing phase: `for i in range(1, total_pages)` fetch page `i` and
resolve each listed kit. -/
def listingPagesLoop (w : World) (kits : PyDict) : List Nat → M PyDict
  | [] => mPure kits
  | i :: is2 =>
      mBind (fetch_json (Request.listingPage i) (w.listingPage i)) (fun dct =>
        mBind (kitIdsLoop w kits (parse_construction_kit_ids dct)) (fun kits2 =>
          listingPagesLoop w kits2 is2))

/-- The innermost parts loop: `for part in parse_parts(dct)` record the
kit-specific count under the kit and upsert the count-free part into the
shared registry. -/
def addParts (ps : List PyDict) (ckParts reg : PyDict) : PyDict × PyDict :=
  match ps with
  | [] => (ckParts, reg)
  | p :: rest =>
      let pid := asKey (dictGetD p (PyKey.str "id") PyVal.none)
      let popped := dictPop p (PyKey.str "count") PyVal.none
      addParts rest (dictInsert ckParts pid popped.1)
        (dictInsert reg pid (PyVal.dict popped.2))

/-- The per-kit page loop: `for i in range(1, total_pages)` fetch parts
page `i` of the kit stored under key `tk` and merge its parts, updating the
kit's `parts` dict in place. -/
def partsPagesLoop (w : World) (tk : PyKey) (ck reg : PyDict) :
    List Nat → M (PyDict × PyDict)
  | [] => mPure (ck, reg)
  | i :: is2 =>
      mBind (fetch_json (Request.partsPage tk i) (w.partsPage tk i)) (fun dct =>
        let merged := addParts (parse_parts dct)
          (asDict (dictGetD ck (PyKey.str "parts") (PyVal.dict []))) reg
        partsPagesLoop w tk
          (dictInsert ck (PyKey.str "parts") (PyVal.dict merged.1)) merged.2 is2)

/-- The parts phase over the kits in insertion order: probe the total for
each kit; a total of zero skips the kit (`continue`), otherwise walk its
part pages. -/
def kitsPartsLoop (w : World) (reg : PyDict) :
    List (PyKey × PyVal) → M (List (PyKey × PyVal) × PyDict)
  | [] => mPure ([], reg)
  | (tk, ckv) :: rest =>
      mBind (fetch_json (Request.partsProbe tk) (w.partsProbe tk)) (fun probe =>
        if probe.cTotal = 0 then
          mBind (kitsPartsLoop w reg rest) (fun pr =>
            mPure ((tk, ckv) :: pr.1, pr.2))
        else
          mBind (partsPagesLoop w tk (asDict ckv) reg (List.range' 1 probe.cPages))
            (fun cr =>
              mBind (kitsPartsLoop w cr.2 rest) (fun pr =>
                mPure ((tk, PyVal.dict cr.1) :: pr.1, pr.2))))

/-- `download_construction_kits`: fetch the base listing (only its
`cPages` is used), resolve every listed kit, then resolve every kit's
parts, and return `\x7b'kits': ..., 'parts': ...\x7d`. -/
def download_construction_kits (w : World) : M PyVal :=
  mBind (fetch_json Request.listingBase w.listingBase) (fun dct =>
    mBind (listingPagesLoop w [] (List.range' 1 dct.cPages)) (fun kits =>
      mBind (kitsPartsLoop w [] kits) (fun pr =>
        mPure (PyVal.dict
          [(PyKey.str "kits", PyVal.dict pr.1),
           (PyKey.str "parts", PyVal.dict pr.2)]))))

/-- A JSON document, as the text written by `json.dump` denotes it
(whitespace/indentation abstracted away): object keys are strings and
appear in the emitted (sorted) order. -/
inductive Json where
  | null
  | int (i : Int)
  | str (s : String)
  | arr (xs : List Json)
  | obj (es : List (String × Json))
deriving Repr

/-- Python `str(key)` as `json.dump` applies it to an `int` dict key; a
`str` key is kept as is. -/
def keyStr : PyKey → String
  | PyKey.int i => toString i
  | PyKey.str s => s

/-- Lexicographic (code-point) comparison of char lists, as Python
compares strings. -/
def charListLe : List Char → List Char → Bool
  | [], _ => true
  | _ :: _, [] => false
  | a :: as2, b :: bs =>
      if a < b then true else if b < a then false else charListLe as2 bs

/-- Python `a <= b` on strings. -/
def strLe (a b : String) : Bool := charListLe a.data b.data

/-- The key order `sorted(d.items())` uses.  Python sorts by the original
keys before stringifying them; a dict mixing `int` and `str` keys would
raise `TypeError` and never occurs in this program's data, so the
cross-kind ordering here is an arbitrary total completion. -/
def keyLe : PyKey → PyKey → Bool
  | PyKey.int i, PyKey.int j => decide (i ≤ j)
  | PyKey.str a, PyKey.str b => strLe a b
  | PyKey.int _, PyKey.str _ => true
  | PyKey.str _, PyKey.int _ => false

/-- Insert one entry into a key-sorted entry list (stable). -/
def insEntry {α : Type} (e : PyKey × α) : List (PyKey × α) → List (PyKey × α)
  | [] => [e]
  | f :: fs => if keyLe e.1 f.1 then e :: f :: fs else f :: insEntry e fs

/-- `sorted(d.items())`: stable insertion sort by key. -/
def sortEntries {α : Type} : List (PyKey × α) → List (PyKey × α)
  | [] => []
  | e :: es => insEntry e (sortEntries es)

mutual
/-- `json.dump(v, f, sort_keys=True, indent=2)` as the JSON document the
written text denotes: dict entries are emitted in sorted key order with
keys stringified; values serialize recursively. -/
def pyToJson : PyVal → Json
  | PyVal.none => Json.null
  | PyVal.int i => Json.int i
  | PyVal.str s => Json.str s
  | PyVal.list xs => Json.arr (pyListToJson xs)
  | PyVal.dict es =>
      Json.obj ((sortEntries (pyEntriesToJson es)).map (fun e => (keyStr e.1, e.2)))
/-- Serialization of a value list. -/
def pyListToJson : List PyVal → List Json
  | [] => []
  | x :: xs => pyToJson x :: pyListToJson xs
/-- Serialization of dict entries, keeping the original key for sorting. -/
def pyEntriesToJson : List (PyKey × PyVal) → List (PyKey × Json)
  | [] => []
  | e :: es => (e.1, pyToJson e.2) :: pyEntriesToJson es
end

mutual
/-- `json.load` of a document back into Python: object keys are strings;
entries keep the textual order.  (Duplicate keys cannot occur in output
produced from a dict.) -/
def jsonToPy : Json → PyVal
  | Json.null => PyVal.none
  | Json.int i => PyVal.int i
  | Json.str s => PyVal.str s
  | Json.arr xs => PyVal.list (jsonListToPy xs)
  | Json.obj es => PyVal.dict (jsonEntriesToPy es)
/-- Parsing of an array's elements. -/
def jsonListToPy : List Json → List PyVal
  | [] => []
  | x :: xs => jsonToPy x :: jsonListToPy xs
/-- Parsing of an object's entries. -/
def jsonEntriesToPy : List (String × Json) → List (PyKey × PyVal)
  | [] => []
  | e :: es => (PyKey.str e.1, jsonToPy e.2) :: jsonEntriesToPy es
end

mutual
/-- The canonical form `dump`-then-`load` produces: every dict's entries
sorted by original key and the keys replaced by their string form,
recursively. -/
def pyCanon : PyVal → PyVal
  | PyVal.none => PyVal.none
  | PyVal.int i => PyVal.int i
  | PyVal.str s => PyVal.str s
  | PyVal.list xs => PyVal.list (pyCanonList xs)
  | PyVal.dict es =>
      PyVal.dict ((sortEntries (pyCanonEntries es)).map
        (fun e => (PyKey.str (keyStr e.1), e.2)))
/-- Canonical form of a value list. -/
def pyCanonList : List PyVal → List PyVal
  | [] => []
  | x :: xs => pyCanon x :: pyCanonList xs
/-- Canonical form of dict entries, keeping the original key for sorting. -/
def pyCanonEntries : List (PyKey × PyVal) → List (PyKey × PyVal)
  | [] => []
  | e :: es => (e.1, pyCanon e.2) :: pyCanonEntries es
end

/-- The `__main__` block: run the crawl, and only if it returns (no
exception) open the dump file and serialize the snapshot; an exception
propagates before the file is opened, so a failed run writes nothing. -/
def mainOutput (w : World) : Option Json :=
  match (download_construction_kits w).2 with
  | Except.error _ => Option.none
  | Except.ok v => some (pyToJson v)

/-- The snapshot produced by a successful crawl (or `None` on failure) —
projection helpers for stating concrete facts. -/
def okSnap (w : World) : PyVal :=
  match (download_construction_kits w).2 with
  | Except.ok v => v
  | Except.error _ => PyVal.none

/-- The `kits` table of a snapshot value. -/
def snapKits (v : PyVal) : PyDict :=
  asDict (dictGetD (asDict v) (PyKey.str "kits") (PyVal.dict []))

/-- The `parts` table of a snapshot value. -/
def snapParts (v : PyVal) : PyDict :=
  asDict (dictGetD (asDict v) (PyKey.str "parts") (PyVal.dict []))

/-- The `parts` mapping of the kit stored under key `k`. -/
def kitParts (v : PyVal) (k : PyKey) : PyDict :=
  asDict (dictGetD (asDict (dictGetD (snapKits v) k (PyVal.dict [])))
    (PyKey.str "parts") (PyVal.dict []))

/-- Listing record of kit 10 (category 653 only). -/
def recK10 : RawRecord where
  ticket_id := 10
  createdUTC := "2020-05-01 10:00:00"
  title := "Kit Ten"
  ft_cat_all := ["653"]

/-- Listing record of kit 20 (category 653 only). -/
def recK20 : RawRecord where
  ticket_id := 20
  createdUTC := "2020-05-02 11:00:00"
  title := "Kit Twenty"
  ft_cat_all := ["653"]

/-- Detail record of kit 10. -/
def recK10d : RawRecord where
  ticket_id := 10
  createdUTC := "2020-05-01 10:00:00"
  title := "Kit Ten"
  ft_icon := some "icon10"

/-- Detail record of kit 20. -/
def recK20d : RawRecord where
  ticket_id := 20
  createdUTC := "2020-05-02 11:00:00"
  title := "Kit Twenty"

/-- Part 100 as listed in kit 10's parts pages: raw count 3. -/
def recP100a : RawRecord where
  ticket_id := 100
  createdUTC := "2020-04-01 00:00:00"
  title := "Part A"
  ft_weight := some "1.5"
  ft_count := some 3

/-- Part 100 as listed in kit 20's parts pages: raw count 5 and a
different title, so the shared-registry overwrite is observable. -/
def recP100b : RawRecord where
  ticket_id := 100
  createdUTC := "2020-04-02 00:00:00"
  title := "Part B"
  ft_count := some 5

/-- Happy-path world: two kits (10, 20), one shared part (100) with
kit-specific raw counts 3 and 5. -/
def wA : World where
  listingBase := Outcome.response ⟨"OK", 1, 2, []⟩
  listingPage := fun i =>
    if i = 1 then Outcome.response ⟨"OK", 1, 2, [recK10, recK20]⟩
    else Outcome.transport
  detail := fun t =>
    if t = 10 then Outcome.response ⟨"OK", 0, 0, recK10d⟩
    else if t = 20 then Outcome.response ⟨"OK", 0, 0, recK20d⟩
    else Outcome.transport
  partsProbe := fun k =>
    if k = PyKey.int 10 then Outcome.response ⟨"OK", 1, 1, []⟩
    else if k = PyKey.int 20 then Outcome.response ⟨"OK", 1, 1, []⟩
    else Outcome.transport
  partsPage := fun k i =>
    if k = PyKey.int 10 then
      (if i = 1 then Outcome.response ⟨"OK", 1, 1, [recP100a]⟩ else Outcome.transport)
    else if k = PyKey.int 20 then
      (if i = 1 then Outcome.response ⟨"OK", 1, 1, [recP100b]⟩ else Outcome.transport)
    else Outcome.transport

/-- `wA` with a transport-level failure on every parts page: the first
kit's first part-page fetch fails mid-crawl. -/
def wFail : World :=
  { wA with partsPage := fun _ _ => Outcome.transport }

/-- A world whose listing page 2 reports a non-`"OK"` status. -/
def wBad : World where
  listingBase := Outcome.response ⟨"OK", 2, 0, []⟩
  listingPage := fun i =>
    if i = 1 then Outcome.response ⟨"OK", 2, 0, []⟩
    else Outcome.response ⟨"ERROR", 2, 0, []⟩
  detail := fun _ => Outcome.transport
  partsProbe := fun _ => Outcome.transport
  partsPage := fun _ _ => Outcome.transport

/-- Listing record of kit 30. -/
def recK30 : RawRecord where
  ticket_id := 30
  createdUTC := "2020-06-01 00:00:00"
  title := "Kit Thirty"
  ft_cat_all := ["653"]

/-- Detail record of kit 30. -/
def recK30d : RawRecord where
  ticket_id := 30
  createdUTC := "2020-06-01 00:00:00"
  title := "Kit Thirty"

/-- World with a single kit whose parts total is reported as 0; any
parts-page fetch would be a transport error, so a successful crawl shows
none is attempted. -/
def wZero : World where
  listingBase := Outcome.response ⟨"OK", 1, 1, []⟩
  listingPage := fun i =>
    if i = 1 then Outcome.response ⟨"OK", 1, 1, [recK30]⟩ else Outcome.transport
  detail := fun t =>
    if t = 30 then Outcome.response ⟨"OK", 0, 0, recK30d⟩ else Outcome.transport
  partsProbe := fun k =>
    if k = PyKey.int 30 then Outcome.response ⟨"OK", 0, 0, []⟩ else Outcome.transport
  partsPage := fun _ _ => Outcome.transport

/-- Listing record of kit 40 (category 653 only). -/
def recK40 : RawRecord where
  ticket_id := 40
  createdUTC := "2020-07-01 00:00:00"
  title := "Kit Forty"
  ft_cat_all := ["653"]

/-- Listing record of ticket 41, a fischertip kit (category 661). -/
def recK41 : RawRecord where
  ticket_id := 41
  createdUTC := "2020-07-02 00:00:00"
  title := "Tip Kit"
  ft_cat_all := ["653", "661"]

/-- Detail record of kit 40. -/
def recK40d : RawRecord where
  ticket_id := 40
  createdUTC := "2020-07-01 00:00:00"
  title := "Kit Forty"

/-- World whose listing contains a category-661 ticket (41) next to a
regular kit (40). -/
def w661 : World where
  listingBase := Outcome.response ⟨"OK", 1, 2, []⟩
  listingPage := fun i =>
    if i = 1 then Outcome.response ⟨"OK", 1, 2, [recK40, recK41]⟩
    else Outcome.transport
  detail := fun t =>
    if t = 40 then Outcome.response ⟨"OK", 0, 0, recK40d⟩ else Outcome.transport
  partsProbe := fun k =>
    if k = PyKey.int 40 then Outcome.response ⟨"OK", 0, 0, []⟩ else Outcome.transport
  partsPage := fun _ _ => Outcome.transport


/-- The keys of a kit dict's `parts` mapping. -/
def ckPartsKeys (ck : PyDict) : List PyKey :=
  dictKeys (asDict (dictGetD ck (PyKey.str "parts") (PyVal.dict [])))

/-- The keys of the `parts` mapping of a kit stored as a `PyVal`. -/
def entryPartsKeys (v : PyVal) : List PyKey :=
  ckPartsKeys (asDict v)

/-- A table entry whose key is the integer id stored in its record's
`id` field. -/
def idKeyedEntry (e : PyKey × PyVal) : Prop :=
  ∃ i, e.1 = PyKey.int i
    ∧ dictGet? (asDict e.2) (PyKey.str "id") = some (PyVal.int i)

/-- A record whose raw article numbers are the literal string `"[]"`. -/
def recArtEmpty : RawRecord where
  ticket_id := 2
  createdUTC := ""
  title := ""
  ft_article_nos := some ArtNos.emptyLit

/-- The kit table produced by the listing phase of `wZero`. -/
def phase1Zero : PyDict :=
  match (listingPagesLoop wZero [] [1]).2 with
  | Except.ok ks => ks
  | Except.error _ => []

theorem dictGet?_cons {k2 k : PyKey} {v : PyVal} {fs : PyDict} :
    dictGet? ((k2, v) :: fs) k = if k2 = k then some v else dictGet? fs k := rfl

theorem dictInsert_cons {k2 k : PyKey} {v2 v : PyVal} {fs : PyDict} :
    dictInsert ((k2, v2) :: fs) k v
      = if k2 = k then (k2, v) :: fs else (k2, v2) :: dictInsert fs k v := rfl

theorem dictPop_cons {k2 k : PyKey} {v dflt : PyVal} {fs : PyDict} :
    dictPop ((k2, v) :: fs) k dflt
      = if k2 = k then (v, fs)
        else ((dictPop fs k dflt).1, (k2, v) :: (dictPop fs k dflt).2) := rfl

theorem mem_dictInsert {es : PyDict} {k : PyKey} {v : PyVal} {e : PyKey × PyVal}
    (h : e ∈ dictInsert es k v) : e ∈ es ∨ e = (k, v) := by
  induction es with
  | nil => simp [dictInsert] at h; simp [h]
  | cons f fs ih =>
      obtain ⟨k3, v3⟩ := f
      rw [dictInsert_cons] at h
      by_cases hk : k3 = k
      · rw [if_pos hk] at h
        rcases List.mem_cons.mp h with h1 | h1
        · right; rw [h1, hk]
        · left; exact List.mem_cons_of_mem _ h1
      · rw [if_neg hk] at h
        rcases List.mem_cons.mp h with h1 | h1
        · left; rw [h1]; exact List.mem_cons_self _ _
        · rcases ih h1 with h2 | h2
          · left; exact List.mem_cons_of_mem _ h2
          · right; exact h2

theorem dictKeys_insert {es : PyDict} {k : PyKey} {v : PyVal} {a : PyKey} :
    a ∈ dictKeys (dictInsert es k v) ↔ a ∈ dictKeys es ∨ a = k := by
  induction es with
  | nil => simp [dictInsert, dictKeys]
  | cons f fs ih =>
      obtain ⟨k3, v3⟩ := f
      rw [dictInsert_cons]
      by_cases hk : k3 = k
      · rw [if_pos hk]
        simp only [dictKeys, List.map_cons, List.mem_cons]
        constructor
        · rintro (h | h)
          · left; left; exact h
          · left; right; exact h
        · rintro ((h | h) | h)
          · left; exact h
          · right; exact h
          · left; rw [h, hk]
      · rw [if_neg hk]
        simp only [dictKeys, List.map_cons, List.mem_cons] at ih ⊢
        constructor
        · rintro (h | h)
          · left; left; exact h
          · rcases ih.mp h with h2 | h2
            · left; right; exact h2
            · right; exact h2
        · rintro ((h | h) | h)
          · left; exact h
          · right; exact ih.mpr (Or.inl h)
          · right; exact ih.mpr (Or.inr h)

theorem dictKeys_insert_mono {es : PyDict} {k : PyKey} {v : PyVal} {a : PyKey}
    (h : a ∈ dictKeys es) : a ∈ dictKeys (dictInsert es k v) :=
  dictKeys_insert.mpr (Or.inl h)

theorem dictKeys_insert_self {es : PyDict} {k : PyKey} {v : PyVal} :
    k ∈ dictKeys (dictInsert es k v) :=
  dictKeys_insert.mpr (Or.inr rfl)

theorem dictGet?_mem {es : PyDict} {k : PyKey} {v : PyVal}
    (h : dictGet? es k = some v) : (k, v) ∈ es := by
  induction es with
  | nil => simp [dictGet?] at h
  | cons f fs ih =>
      obtain ⟨k3, v3⟩ := f
      rw [dictGet?_cons] at h
      by_cases hk : k3 = k
      · rw [if_pos hk] at h
        cases h
        exact List.mem_cons.mpr (Or.inl (by rw [← hk]))
      · rw [if_neg hk] at h
        exact List.mem_cons_of_mem _ (ih h)

theorem mem_keys_dictGet? {es : PyDict} {k : PyKey}
    (h : k ∈ dictKeys es) : ∃ v, dictGet? es k = some v ∧ (k, v) ∈ es := by
  induction es with
  | nil => simp [dictKeys] at h
  | cons f fs ih =>
      obtain ⟨k3, v3⟩ := f
      by_cases hk : k3 = k
      · refine ⟨v3, ?_, ?_⟩
        · rw [dictGet?_cons, if_pos hk]
        · exact List.mem_cons.mpr (Or.inl (by rw [← hk]))
      · simp only [dictKeys, List.map_cons, List.mem_cons] at h
        rcases h with h | h
        · exact absurd h.symm hk
        · rcases ih h with ⟨v, hv, hm⟩
          refine ⟨v, ?_, List.mem_cons_of_mem _ hm⟩
          rw [dictGet?_cons, if_neg hk]
          exact hv

theorem dictGet?_insert_self {es : PyDict} {k : PyKey} {v : PyVal} :
    dictGet? (dictInsert es k v) k = some v := by
  induction es with
  | nil => simp [dictInsert, dictGet?]
  | cons f fs ih =>
      obtain ⟨k3, v3⟩ := f
      rw [dictInsert_cons]
      by_cases hk : k3 = k
      · rw [if_pos hk, dictGet?_cons, if_pos hk]
      · rw [if_neg hk, dictGet?_cons, if_neg hk]
        exact ih

theorem dictGet?_insert_ne {es : PyDict} {k k2 : PyKey} {v : PyVal}
    (h : k2 ≠ k) : dictGet? (dictInsert es k2 v) k = dictGet? es k := by
  induction es with
  | nil => simp [dictInsert, dictGet?, h]
  | cons f fs ih =>
      obtain ⟨k3, v3⟩ := f
      rw [dictInsert_cons]
      by_cases hk : k3 = k2
      · rw [if_pos hk, dictGet?_cons, dictGet?_cons,
          if_neg (by rw [hk]; exact h), if_neg (by rw [hk]; exact h)]
      · rw [if_neg hk, dictGet?_cons, dictGet?_cons]
        by_cases hk2 : k3 = k
        · rw [if_pos hk2, if_pos hk2]
        · rw [if_neg hk2, if_neg hk2]
          exact ih

theorem dictGet?_pop_ne {es : PyDict} {k k2 : PyKey} {dflt : PyVal}
    (h : k2 ≠ k) : dictGet? (dictPop es k2 dflt).2 k = dictGet? es k := by
  induction es with
  | nil => simp [dictPop]
  | cons f fs ih =>
      obtain ⟨k3, v3⟩ := f
      rw [dictPop_cons]
      by_cases hk : k3 = k2
      · rw [if_pos hk, dictGet?_cons, if_neg (by rw [hk]; exact h)]
      · rw [if_neg hk]
        rw [show ((dictPop fs k2 dflt).1, (k3, v3) :: (dictPop fs k2 dflt).2).2
            = (k3, v3) :: (dictPop fs k2 dflt).2 from rfl]
        rw [dictGet?_cons, dictGet?_cons]
        by_cases hk2 : k3 = k
        · rw [if_pos hk2, if_pos hk2]
        · rw [if_neg hk2, if_neg hk2]
          exact ih

theorem mBind_trace {α β : Type} (x : M α) (f : α → M β) :
    (mBind x f).1 = match x.2 with
      | Except.error _ => x.1
      | Except.ok a => x.1 ++ (f a).1 := by
  unfold mBind
  cases x.2 <;> rfl

theorem mBind_ok {α β : Type} {x : M α} {f : α → M β} {b : β}
    (h : (mBind x f).2 = Except.ok b) :
    ∃ a, x.2 = Except.ok a ∧ (f a).2 = Except.ok b := by
  unfold mBind at h
  cases hx : x.2 with
  | error e => rw [hx] at h; exact absurd h (by simp)
  | ok a => rw [hx] at h; exact ⟨a, rfl, h⟩

theorem fetch_json_ok {α : Type} {r : Request} {o : Outcome (Resp α)} {d : Resp α}
    (h : (fetch_json r o).2 = Except.ok d) :
    o = Outcome.response d ∧ d.status = "OK" := by
  cases o with
  | transport => exact absurd h (by simp [fetch_json])
  | response d2 =>
      simp only [fetch_json] at h
      by_cases hs : d2.status = "OK"
      · rw [if_neg (fun hc => hc hs)] at h
        simp only at h
        cases h
        exact ⟨rfl, hs⟩
      · rw [if_pos hs] at h
        exact absurd h (by simp)

/-- The safety predicate behind the fatal-error theorems: every request a
computation performed whose network answer is a failure forces the
computation's overall result to be exactly that failure. -/
def MSafe (w : World) {α : Type} (m : M α) : Prop :=
  ∀ r, r ∈ m.1 → ∀ e, reqErr w r = some e → m.2 = Except.error e

theorem msafe_pure {w : World} {α : Type} (a : α) : MSafe w (mPure a) := by
  intro r hr
  simp [mPure] at hr

theorem msafe_bind {w : World} {α β : Type} {x : M α} {f : α → M β}
    (hx : MSafe w x) (hf : ∀ a, MSafe w (f a)) : MSafe w (mBind x f) := by
  intro r hr e he
  cases hxv : x.2 with
  | error e2 =>
      have htr : (mBind x f).1 = x.1 := by unfold mBind; rw [hxv]
      have hres : (mBind x f).2 = Except.error e2 := by unfold mBind; rw [hxv]
      rw [htr] at hr
      have h2 := hx r hr e he
      rw [hxv] at h2
      cases h2
      exact hres
  | ok a =>
      have htr : (mBind x f).1 = x.1 ++ (f a).1 := by unfold mBind; rw [hxv]
      have hres : (mBind x f).2 = (f a).2 := by unfold mBind; rw [hxv]
      rw [htr, List.mem_append] at hr
      rcases hr with hr | hr
      · have h2 := hx r hr e he
        rw [hxv] at h2
        exact absurd h2 (by simp)
      · rw [hres]
        exact (hf a) r hr e he

theorem msafe_fetch_json {w : World} {α : Type} (r : Request) (o : Outcome (Resp α))
    (h : reqErr w r = outcomeErr r o) : MSafe w (fetch_json r o) := by
  intro r2 hr2 e he
  cases o with
  | transport =>
      simp only [fetch_json, List.mem_singleton] at hr2
      subst hr2
      rw [h] at he
      simp only [outcomeErr] at he
      cases he
      rfl
  | response d =>
      simp only [fetch_json] at hr2
      by_cases hs : d.status = "OK"
      · rw [if_neg (fun hc => hc hs)] at hr2
        simp only [List.mem_singleton] at hr2
        subst hr2
        rw [h] at he
        simp only [outcomeErr] at he
        rw [if_neg (fun hc => hc hs)] at he
        exact absurd he (by simp)
      · rw [if_pos hs] at hr2
        simp only [List.mem_singleton] at hr2
        subst hr2
        rw [h] at he
        simp only [outcomeErr] at he
        rw [if_pos hs] at he
        cases he
        simp only [fetch_json]
        rw [if_pos hs]

theorem msafe_get_construction_kit (w : World) (t : Int) :
    MSafe w (get_construction_kit w t) :=
  msafe_bind (msafe_fetch_json _ _ rfl) (fun _ => msafe_pure _)

theorem msafe_kitIdsLoop (w : World) :
    ∀ (ts : List Int) (kits : PyDict), MSafe w (kitIdsLoop w kits ts)
  | [], _ => msafe_pure _
  | t :: ts, _ =>
      msafe_bind (msafe_get_construction_kit w t)
        (fun _ => msafe_kitIdsLoop w ts _)

theorem msafe_listingPagesLoop (w : World) :
    ∀ (pages : List Nat) (kits : PyDict), MSafe w (listingPagesLoop w kits pages)
  | [], _ => msafe_pure _
  | _ :: is2, _ =>
      msafe_bind (msafe_fetch_json _ _ rfl)
        (fun dct =>
          msafe_bind (msafe_kitIdsLoop w (parse_construction_kit_ids dct) _)
            (fun _ => msafe_listingPagesLoop w is2 _))

theorem msafe_partsPagesLoop (w : World) (tk : PyKey) :
    ∀ (pages : List Nat) (ck reg : PyDict), MSafe w (partsPagesLoop w tk ck reg pages)
  | [], _, _ => msafe_pure _
  | _ :: is2, _, _ =>
      msafe_bind (msafe_fetch_json _ _ rfl)
        (fun _ => msafe_partsPagesLoop w tk is2 _ _)

theorem msafe_kitsPartsLoop (w : World) :
    ∀ (entries : List (PyKey × PyVal)) (reg : PyDict),
      MSafe w (kitsPartsLoop w reg entries)
  | [], _ => msafe_pure _
  | (tk, ckv) :: rest, reg => by
      refine msafe_bind (msafe_fetch_json _ _ rfl) (fun probe => ?_)
      by_cases h : probe.cTotal = 0
      · rw [if_pos h]
        exact msafe_bind (msafe_kitsPartsLoop w rest reg) (fun _ => msafe_pure _)
      · rw [if_neg h]
        exact msafe_bind (msafe_partsPagesLoop w tk _ (asDict ckv) reg)
          (fun cr => msafe_bind (msafe_kitsPartsLoop w rest cr.2)
            (fun _ => msafe_pure _))

theorem msafe_download (w : World) : MSafe w (download_construction_kits w) :=
  msafe_bind (msafe_fetch_json _ _ rfl) (fun dct =>
    msafe_bind (msafe_listingPagesLoop w (List.range' 1 dct.cPages) [])
      (fun kits =>
        msafe_bind (msafe_kitsPartsLoop w kits []) (fun _ => msafe_pure _)))

theorem parse_common_id (d : RawRecord) :
    dictGet? (parse_common d) (PyKey.str "id") = some (PyVal.int d.ticket_id) := rfl

theorem kit_dict_id (r : RawRecord) :
    dictGet? (dictInsert (parse_common r) (PyKey.str "parts") (PyVal.dict []))
      (PyKey.str "id") = some (PyVal.int r.ticket_id) := rfl

theorem kit_dict_parts (r : RawRecord) :
    dictGet? (dictInsert (parse_common r) (PyKey.str "parts") (PyVal.dict []))
      (PyKey.str "parts") = some (PyVal.dict []) := rfl

theorem kit_dict_key (r : RawRecord) :
    asKey (dictGetD (dictInsert (parse_common r) (PyKey.str "parts") (PyVal.dict []))
      (PyKey.str "id") PyVal.none) = PyKey.int r.ticket_id := rfl

theorem kit_fresh_parts_empty (r : RawRecord) :
    entryPartsKeys (PyVal.dict (dictInsert (parse_common r) (PyKey.str "parts")
      (PyVal.dict []))) = [] := rfl

theorem parse_part_key (d : RawRecord) :
    asKey (dictGetD (parse_part_record d) (PyKey.str "id") PyVal.none)
      = PyKey.int d.ticket_id := rfl

theorem parse_part_popped_id (d : RawRecord) :
    dictGet? (dictPop (parse_part_record d) (PyKey.str "count") PyVal.none).2
      (PyKey.str "id") = some (PyVal.int d.ticket_id) := rfl

theorem ckPartsKeys_insert_parts (ck : PyDict) (m : PyDict) :
    ckPartsKeys (dictInsert ck (PyKey.str "parts") (PyVal.dict m)) = dictKeys m := by
  unfold ckPartsKeys dictGetD
  rw [dictGet?_insert_self]
  rfl

theorem get_construction_kit_ok {w : World} {t : Int} {ck : PyDict}
    (h : (get_construction_kit w t).2 = Except.ok ck) :
    ∃ d, w.detail t = Outcome.response d ∧ d.status = "OK" ∧
      ck = dictInsert (parse_common d.results) (PyKey.str "parts") (PyVal.dict []) := by
  unfold get_construction_kit at h
  rcases mBind_ok h with ⟨d, hd, hp⟩
  rcases fetch_json_ok hd with ⟨ho, hs⟩
  refine ⟨d, ho, hs, ?_⟩
  have h2 : Except.ok (dictInsert (parse_common d.results) (PyKey.str "parts")
      (PyVal.dict [])) = Except.ok ck := hp
  cases h2
  rfl

theorem kitIdsLoop_ok (w : World) :
    ∀ (ts : List Int) (kits ks : PyDict),
      (kitIdsLoop w kits ts).2 = Except.ok ks →
      ∀ e ∈ ks, e ∈ kits ∨
        ∃ t ∈ ts, ∃ d, w.detail t = Outcome.response d ∧
          e = (PyKey.int d.results.ticket_id,
               PyVal.dict (dictInsert (parse_common d.results) (PyKey.str "parts")
                 (PyVal.dict [])))
  | [], kits, ks, h, e, he => by
      have h2 : Except.ok kits = Except.ok ks := h
      cases h2
      exact Or.inl he
  | t :: ts, kits, ks, h, e, he => by
      unfold kitIdsLoop at h
      rcases mBind_ok h with ⟨ck, hck, hrest⟩
      rcases get_construction_kit_ok hck with ⟨d, hd, hs, hckval⟩
      subst hckval
      rcases kitIdsLoop_ok w ts _ ks hrest e he with h1 | ⟨t2, ht2, d2, hd2, he2⟩
      · rcases mem_dictInsert h1 with h2 | h2
        · exact Or.inl h2
        · right
          refine ⟨t, List.mem_cons_self _ _, d, hd, ?_⟩
          rw [h2, kit_dict_key]
      · exact Or.inr ⟨t2, List.mem_cons_of_mem _ ht2, d2, hd2, he2⟩

theorem listingPagesLoop_ok (w : World) :
    ∀ (pages : List Nat) (kits ks : PyDict),
      (listingPagesLoop w kits pages).2 = Except.ok ks →
      ∀ e ∈ ks, e ∈ kits ∨
        ∃ i ∈ pages, ∃ resp, w.listingPage i = Outcome.response resp ∧
          ∃ t ∈ parse_construction_kit_ids resp, ∃ d,
            w.detail t = Outcome.response d ∧
            e = (PyKey.int d.results.ticket_id,
                 PyVal.dict (dictInsert (parse_common d.results) (PyKey.str "parts")
                   (PyVal.dict [])))
  | [], kits, ks, h, e, he => by
      have h2 : Except.ok kits = Except.ok ks := h
      cases h2
      exact Or.inl he
  | i :: is2, kits, ks, h, e, he => by
      unfold listingPagesLoop at h
      rcases mBind_ok h with ⟨dct, hdct, h2⟩
      rcases mBind_ok h2 with ⟨kits2, hkits2, h3⟩
      rcases fetch_json_ok hdct with ⟨hw, _⟩
      rcases listingPagesLoop_ok w is2 kits2 ks h3 e he with
        h4 | ⟨i2, hi2, resp, hresp, t, ht, d, hd, he2⟩
      · rcases kitIdsLoop_ok w _ kits kits2 hkits2 e h4 with
          h5 | ⟨t, ht, d, hd, he2⟩
        · exact Or.inl h5
        · exact Or.inr ⟨i, List.mem_cons_self _ _, dct, hw, t, ht, d, hd, he2⟩
      · exact Or.inr ⟨i2, List.mem_cons_of_mem _ hi2, resp, hresp, t, ht, d, hd, he2⟩

theorem parse_parts_shape {resp : Resp (List RawRecord)} :
    ∀ p ∈ parse_parts resp, ∃ d, p = parse_part_record d := by
  intro p hp
  unfold parse_parts at hp
  rcases List.mem_map.mp hp with ⟨d, _, hd⟩
  exact ⟨d, hd.symm⟩

theorem addParts_props :
    ∀ (ps : List PyDict) (cp reg : PyDict),
      (∀ p ∈ ps, ∃ d, p = parse_part_record d) →
      (∀ a ∈ dictKeys reg, a ∈ dictKeys (addParts ps cp reg).2)
      ∧ (∀ a ∈ dictKeys (addParts ps cp reg).1,
           a ∈ dictKeys cp ∨ a ∈ dictKeys (addParts ps cp reg).2)
      ∧ (∀ e ∈ (addParts ps cp reg).2, e ∈ reg ∨ idKeyedEntry e)
  | [], cp, reg, _ =>
      ⟨fun _ ha => ha, fun _ ha => Or.inl ha, fun _ he => Or.inl he⟩
  | p :: rest, cp, reg, hps => by
      obtain ⟨d, hd⟩ := hps p (List.mem_cons_self _ _)
      subst hd
      have heq : addParts (parse_part_record d :: rest) cp reg
          = addParts rest
              (dictInsert cp
                (asKey (dictGetD (parse_part_record d) (PyKey.str "id") PyVal.none))
                (dictPop (parse_part_record d) (PyKey.str "count") PyVal.none).1)
              (dictInsert reg
                (asKey (dictGetD (parse_part_record d) (PyKey.str "id") PyVal.none))
                (PyVal.dict
                  (dictPop (parse_part_record d) (PyKey.str "count") PyVal.none).2)) := rfl
      obtain ⟨Ha, Hb, Hc⟩ := addParts_props rest
        (dictInsert cp
          (asKey (dictGetD (parse_part_record d) (PyKey.str "id") PyVal.none))
          (dictPop (parse_part_record d) (PyKey.str "count") PyVal.none).1)
        (dictInsert reg
          (asKey (dictGetD (parse_part_record d) (PyKey.str "id") PyVal.none))
          (PyVal.dict
            (dictPop (parse_part_record d) (PyKey.str "count") PyVal.none).2))
        (fun q hq => hps q (List.mem_cons_of_mem _ hq))
      rw [heq]
      refine ⟨?_, ?_, ?_⟩
      · intro a ha
        exact Ha a (dictKeys_insert_mono ha)
      · intro a ha
        rcases Hb a ha with h1 | h1
        · rcases dictKeys_insert.mp h1 with h2 | h2
          · exact Or.inl h2
          · subst h2
            exact Or.inr (Ha _ dictKeys_insert_self)
        · exact Or.inr h1
      · intro e he
        rcases Hc e he with h1 | h1
        · rcases mem_dictInsert h1 with h2 | h2
          · exact Or.inl h2
          · right
            rw [h2]
            unfold idKeyedEntry
            exact ⟨d.ticket_id, parse_part_key d, parse_part_popped_id d⟩
        · exact Or.inr h1

theorem partsPagesLoop_ok (w : World) (tk : PyKey) :
    ∀ (pages : List Nat) (ck reg : PyDict) (pr : PyDict × PyDict),
      (partsPagesLoop w tk ck reg pages).2 = Except.ok pr →
      (∀ a ∈ dictKeys reg, a ∈ dictKeys pr.2)
      ∧ (∀ a ∈ ckPartsKeys pr.1, a ∈ ckPartsKeys ck ∨ a ∈ dictKeys pr.2)
      ∧ (∀ e ∈ pr.2, e ∈ reg ∨ idKeyedEntry e)
      ∧ dictGet? pr.1 (PyKey.str "id") = dictGet? ck (PyKey.str "id")
  | [], ck, reg, pr, h => by
      have h2 : Except.ok (ck, reg) = Except.ok pr := h
      cases h2
      exact ⟨fun _ ha => ha, fun _ ha => Or.inl ha, fun _ he => Or.inl he, rfl⟩
  | i :: is2, ck, reg, pr, h => by
      unfold partsPagesLoop at h
      rcases mBind_ok h with ⟨dct, _, hrest⟩
      obtain ⟨Ha, Hb, Hc, Hd⟩ := partsPagesLoop_ok w tk is2
        (dictInsert ck (PyKey.str "parts")
          (PyVal.dict (addParts (parse_parts dct)
            (asDict (dictGetD ck (PyKey.str "parts") (PyVal.dict []))) reg).1))
        (addParts (parse_parts dct)
          (asDict (dictGetD ck (PyKey.str "parts") (PyVal.dict []))) reg).2
        pr hrest
      obtain ⟨Aa, Ab, Ac⟩ := addParts_props (parse_parts dct)
        (asDict (dictGetD ck (PyKey.str "parts") (PyVal.dict []))) reg
        parse_parts_shape
      refine ⟨?_, ?_, ?_, ?_⟩
      · intro a ha
        exact Ha a (Aa a ha)
      · intro a ha
        rcases Hb a ha with h1 | h1
        · rw [ckPartsKeys_insert_parts] at h1
          rcases Ab a h1 with h2 | h2
          · exact Or.inl h2
          · exact Or.inr (Ha a h2)
        · exact Or.inr h1
      · intro e he
        rcases Hc e he with h1 | h1
        · rcases Ac e h1 with h2 | h2
          · exact Or.inl h2
          · exact Or.inr h2
        · exact Or.inr h1
      · rw [Hd, dictGet?_insert_ne (by decide)]

theorem kitsPartsLoop_ok (w : World) :
    ∀ (entries : List (PyKey × PyVal)) (reg : PyDict)
      (pr : List (PyKey × PyVal) × PyDict),
      (kitsPartsLoop w reg entries).2 = Except.ok pr →
      (List.map Prod.fst pr.1 = List.map Prod.fst entries)
      ∧ (∀ a ∈ dictKeys reg, a ∈ dictKeys pr.2)
      ∧ (∀ e2 ∈ pr.1, ∃ e ∈ entries, e2.1 = e.1 ∧
           (e2.2 = e.2 ∨
             (dictGet? (asDict e2.2) (PyKey.str "id")
                 = dictGet? (asDict e.2) (PyKey.str "id")
              ∧ ∀ a ∈ entryPartsKeys e2.2,
                  a ∈ entryPartsKeys e.2 ∨ a ∈ dictKeys pr.2)))
      ∧ (∀ e ∈ pr.2, e ∈ reg ∨ idKeyedEntry e)
  | [], reg, pr, h => by
      have h2 : Except.ok (([] : List (PyKey × PyVal)), reg) = Except.ok pr := h
      cases h2
      exact ⟨rfl, fun _ ha => ha,
        fun e2 he2 => absurd he2 (List.not_mem_nil _),
        fun _ he => Or.inl he⟩
  | (tk, ckv) :: rest, reg, pr, h => by
      unfold kitsPartsLoop at h
      rcases mBind_ok h with ⟨probe, _, hbody⟩
      by_cases hz : probe.cTotal = 0
      · rw [if_pos hz] at hbody
        rcases mBind_ok hbody with ⟨pr2, hrec, hpure⟩
        have hp2 : Except.ok ((tk, ckv) :: pr2.1, pr2.2) = Except.ok pr := hpure
        cases hp2
        obtain ⟨K1, K2, K3, K4⟩ := kitsPartsLoop_ok w rest reg pr2 hrec
        refine ⟨?_, K2, ?_, K4⟩
        · show tk :: List.map Prod.fst pr2.1 = tk :: List.map Prod.fst rest
          rw [K1]
        · intro e2 he2
          rcases List.mem_cons.mp he2 with h1 | h1
          · exact ⟨(tk, ckv), List.mem_cons_self _ _, by rw [h1], Or.inl (by rw [h1])⟩
          · rcases K3 e2 h1 with ⟨e, hee, hkey, hval⟩
            exact ⟨e, List.mem_cons_of_mem _ hee, hkey, hval⟩
      · rw [if_neg hz] at hbody
        rcases mBind_ok hbody with ⟨cr, hpages, hbody2⟩
        rcases mBind_ok hbody2 with ⟨pr2, hrec, hpure⟩
        have hp2 : Except.ok ((tk, PyVal.dict cr.1) :: pr2.1, pr2.2)
            = Except.ok pr := hpure
        cases hp2
        obtain ⟨Pa, Pb, Pc, Pd⟩ := partsPagesLoop_ok w tk (List.range' 1 probe.cPages)
          (asDict ckv) reg cr hpages
        obtain ⟨K1, K2, K3, K4⟩ := kitsPartsLoop_ok w rest cr.2 pr2 hrec
        refine ⟨?_, ?_, ?_, ?_⟩
        · show tk :: List.map Prod.fst pr2.1 = tk :: List.map Prod.fst rest
          rw [K1]
        · intro a ha
          exact K2 a (Pa a ha)
        · intro e2 he2
          rcases List.mem_cons.mp he2 with h1 | h1
          · refine ⟨(tk, ckv), List.mem_cons_self _ _, by rw [h1], Or.inr ⟨?_, ?_⟩⟩
            · rw [h1]
              exact Pd
            · rw [h1]
              intro a ha
              rcases Pb a ha with h2 | h2
              · exact Or.inl h2
              · exact Or.inr (K2 a h2)
          · rcases K3 e2 h1 with ⟨e, hee, hkey, hval⟩
            exact ⟨e, List.mem_cons_of_mem _ hee, hkey, hval⟩
        · intro e he
          rcases K4 e he with h1 | h1
          · rcases Pc e h1 with h2 | h2
            · exact Or.inl h2
            · exact Or.inr h2
          · exact Or.inr h1

theorem download_ok_inv {w : World} {snap : PyVal}
    (h : (download_construction_kits w).2 = Except.ok snap) :
    ∃ d0, w.listingBase = Outcome.response d0 ∧ d0.status = "OK" ∧
      ∃ ks, (listingPagesLoop w [] (List.range' 1 d0.cPages)).2 = Except.ok ks ∧
        ∃ pr, (kitsPartsLoop w [] ks).2 = Except.ok pr ∧
          snap = PyVal.dict [(PyKey.str "kits", PyVal.dict pr.1),
                             (PyKey.str "parts", PyVal.dict pr.2)] := by
  unfold download_construction_kits at h
  rcases mBind_ok h with ⟨d0, hd0, h2⟩
  rcases mBind_ok h2 with ⟨ks, hks, h3⟩
  rcases mBind_ok h3 with ⟨pr, hpr, h4⟩
  rcases fetch_json_ok hd0 with ⟨hw, hs⟩
  have h5 : Except.ok (PyVal.dict [(PyKey.str "kits", PyVal.dict pr.1),
      (PyKey.str "parts", PyVal.dict pr.2)]) = Except.ok snap := h4
  cases h5
  exact ⟨d0, hw, hs, ks, hks, pr, hpr, rfl⟩

theorem snapKits_mk (A B : PyDict) :
    snapKits (PyVal.dict [(PyKey.str "kits", PyVal.dict A),
      (PyKey.str "parts", PyVal.dict B)]) = A := rfl

theorem snapParts_mk (A B : PyDict) :
    snapParts (PyVal.dict [(PyKey.str "kits", PyVal.dict A),
      (PyKey.str "parts", PyVal.dict B)]) = B := rfl

theorem mBind_pure_ok {α β : Type} (tr : List Request) (a : α) (f : α → M β) :
    mBind (tr, Except.ok a) f = (tr ++ (f a).1, (f a).2) := rfl

theorem jsonEntriesToPy_stringify (L : List (PyKey × Json)) :
    jsonEntriesToPy (L.map (fun e => (keyStr e.1, e.2)))
      = L.map (fun e => (PyKey.str (keyStr e.1), jsonToPy e.2)) := by
  induction L with
  | nil => rfl
  | cons f fs ih =>
      simp only [List.map_cons, jsonEntriesToPy]
      rw [ih]

theorem insEntry_mapSnd (g : Json → PyVal) (e : PyKey × Json)
    (L : List (PyKey × Json)) :
    (insEntry e L).map (fun f => (f.1, g f.2))
      = insEntry (e.1, g e.2) (L.map (fun f => (f.1, g f.2))) := by
  induction L with
  | nil => rfl
  | cons f fs ih =>
      simp only [insEntry, List.map_cons]
      by_cases hle : keyLe e.1 f.1 = true
      · simp only [hle, if_true, List.map_cons]
      · simp only [hle, if_false, Bool.false_eq_true, List.map_cons, ih]

theorem sortEntries_mapSnd (g : Json → PyVal) (L : List (PyKey × Json)) :
    (sortEntries L).map (fun f => (f.1, g f.2))
      = sortEntries (L.map (fun f => (f.1, g f.2))) := by
  induction L with
  | nil => rfl
  | cons f fs ih =>
      simp only [sortEntries, List.map_cons]
      rw [insEntry_mapSnd, ih]

mutual
theorem pyRoundtrip : (v : PyVal) → jsonToPy (pyToJson v) = pyCanon v
  | PyVal.none => rfl
  | PyVal.int i => rfl
  | PyVal.str s => rfl
  | PyVal.list xs => by
      show PyVal.list (jsonListToPy (pyListToJson xs)) = PyVal.list (pyCanonList xs)
      rw [pyRoundtripList xs]
  | PyVal.dict es => by
      show PyVal.dict (jsonEntriesToPy ((sortEntries (pyEntriesToJson es)).map
          (fun e => (keyStr e.1, e.2))))
        = PyVal.dict ((sortEntries (pyCanonEntries es)).map
          (fun e => (PyKey.str (keyStr e.1), e.2)))
      rw [jsonEntriesToPy_stringify]
      have hsplit : (sortEntries (pyEntriesToJson es)).map
            (fun e => (PyKey.str (keyStr e.1), jsonToPy e.2))
          = ((sortEntries (pyEntriesToJson es)).map
              (fun f => (f.1, jsonToPy f.2))).map
            (fun e => (PyKey.str (keyStr e.1), e.2)) := by
        rw [List.map_map]
        rfl
      rw [hsplit, sortEntries_mapSnd jsonToPy, pyRoundtripEntries es]
theorem pyRoundtripList : (xs : List PyVal) →
    jsonListToPy (pyListToJson xs) = pyCanonList xs
  | [] => rfl
  | x :: xs => by
      show jsonToPy (pyToJson x) :: jsonListToPy (pyListToJson xs)
        = pyCanon x :: pyCanonList xs
      rw [pyRoundtrip x, pyRoundtripList xs]
theorem pyRoundtripEntries : (es : List (PyKey × PyVal)) →
    (pyEntriesToJson es).map (fun f => (f.1, jsonToPy f.2)) = pyCanonEntries es
  | [] => rfl
  | (k, v) :: es => by
      show (k, jsonToPy (pyToJson v))
          :: (pyEntriesToJson es).map (fun f => (f.1, jsonToPy f.2))
        = (k, pyCanon v) :: pyCanonEntries es
      rw [pyRoundtrip v, pyRoundtripEntries es]
end

/-- C1 counterexample: in `wFail` the first kit's part-page fetch fails at
the transport level, yet the crawl does not go on to the remaining kit —
it aborts with that transport error, never probes kit 20's parts, and
writes no output.  This refutes the claim that a transport-level part-page
failure is scoped to its kit. -/
theorem part_page_transport_aborts_crawl :
    (download_construction_kits wFail).2
        = Except.error (FetchErr.transport (Request.partsPage (PyKey.int 10) 1))
    ∧ Request.partsProbe (PyKey.int 20) ∉ (download_construction_kits wFail).1
    ∧ mainOutput wFail = Option.none :=
  ⟨rfl, by decide, rfl⟩

/-- C1 (amended): every failure of a fetch the crawl performs — transport
level or API-status — is fatal to the whole run: the run's result is
exactly that error (so no snapshot exists and no remaining kit's parts are
recorded); there is no per-kit error scoping. -/
theorem any_failed_fetch_is_fatal :
    ∀ (w : World) (r : Request) (e : FetchErr),
      r ∈ (download_construction_kits w).1 → reqErr w r = some e →
      (download_construction_kits w).2 = Except.error e :=
  fun w r e hr he => msafe_download w r hr e he

/-- Witness for C1's amended theorem at the concrete world `wFail` and the
failing part-page request. -/
theorem any_failed_fetch_is_fatal_witness :
    Request.partsPage (PyKey.int 10) 1 ∈ (download_construction_kits wFail).1
    ∧ reqErr wFail (Request.partsPage (PyKey.int 10) 1)
        = some (FetchErr.transport (Request.partsPage (PyKey.int 10) 1))
    ∧ (download_construction_kits wFail).2
        = Except.error (FetchErr.transport (Request.partsPage (PyKey.int 10) 1)) :=
  ⟨by decide, rfl,
   any_failed_fetch_is_fatal wFail (Request.partsPage (PyKey.int 10) 1)
     (FetchErr.transport (Request.partsPage (PyKey.int 10) 1)) (by decide) rfl⟩

/-- C2 counterexample: serializing the snapshot assembled from `wA`
(integer kit/part ids as dict keys) and re-parsing does not return the
original snapshot — the reparse has the string key `"10"` where the
original has the integer key `10`. -/
theorem roundtrip_not_structurally_identical :
    jsonToPy (pyToJson (okSnap wA)) ≠ okSnap wA := by
  intro h
  have h2 : (dictGet? (snapKits (jsonToPy (pyToJson (okSnap wA))))
      (PyKey.str "10")).isSome = true := rfl
  rw [h] at h2
  have h3 : (dictGet? (snapKits (okSnap wA)) (PyKey.str "10")).isSome = false := rfl
  rw [h2] at h3
  exact Bool.noConfusion h3

/-- C2 (amended): serializing with sorted keys and re-parsing yields the
canonical form of the document — every map's entries sorted by the
original key and every key replaced by its string form (`str(key)`), so
integer ids become decimal strings; the result is structurally identical
to the original only when the original is already in this canonical
form. -/
theorem serialize_then_reparse_canonicalizes :
    ∀ v : PyVal, jsonToPy (pyToJson v) = pyCanon v :=
  fun v => pyRoundtrip v

/-- C3 counterexample: for a record whose raw icon field is missing,
`_parse_common` still emits the `thumbnail_url` key — present with value
`None`, not absent as the claim states. -/
theorem thumbnail_field_not_absent :
    dictContains (parse_common recK20d) (PyKey.str "thumbnail_url") = true
    ∧ dictGet? (parse_common recK20d) (PyKey.str "thumbnail_url")
        = some PyVal.none :=
  ⟨rfl, rfl⟩

/-- C3 (amended): `thumbnail_url` is always present in the normalized
record: for a truthy raw icon it holds the derived thumbnail URL, and for
a missing or empty icon it holds `None` (serialized as `null`), never
being absent. -/
theorem thumbnail_always_present :
    ∀ d : RawRecord,
      (∀ icon, d.ft_icon = some icon → icon ≠ "" →
         dictGet? (parse_common d) (PyKey.str "thumbnail_url")
           = some (PyVal.str ("https://ft-datenbank.de/thumbnail/" ++ icon)))
      ∧ ((d.ft_icon = Option.none ∨ d.ft_icon = some "") →
         dictGet? (parse_common d) (PyKey.str "thumbnail_url")
           = some PyVal.none) := by
  intro d
  have hbase : dictGet? (parse_common d) (PyKey.str "thumbnail_url")
      = some (match d.ft_icon with
          | some icon =>
              if icon ≠ "" then
                PyVal.str ("https://ft-datenbank.de/thumbnail/" ++ icon)
              else PyVal.none
          | Option.none => PyVal.none) := rfl
  constructor
  · intro icon hic hne
    rw [hbase, hic]
    simp only
    rw [if_pos hne]
  · rintro (hic | hic)
    · rw [hbase, hic]
    · rw [hbase, hic]
      simp

/-- Witness for C3's amended theorem: a record with icon `"icon10"` gets a
derived thumbnail URL; a record without an icon gets the key with value
`None`. -/
theorem thumbnail_always_present_witness :
    dictGet? (parse_common recK10d) (PyKey.str "thumbnail_url")
        = some (PyVal.str "https://ft-datenbank.de/thumbnail/icon10")
    ∧ dictGet? (parse_common recK20d) (PyKey.str "thumbnail_url")
        = some PyVal.none :=
  ⟨(thumbnail_always_present recK10d).1 "icon10" rfl (by decide),
   (thumbnail_always_present recK20d).2 (Or.inl rfl)⟩

/-- C4: in the snapshot assembled from `wA`, part 100 appears in kits 10
and 20 with raw counts 3 and 5; the final document records count 3 under
kit 10 and 5 under kit 20, the shared part record carries no `count` key,
and its other fields come from the second (last-written) sighting. -/
theorem shared_part_two_kits_counts :
    dictGet? (kitParts (okSnap wA) (PyKey.int 10)) (PyKey.int 100)
        = some (PyVal.int 3)
    ∧ dictGet? (kitParts (okSnap wA) (PyKey.int 20)) (PyKey.int 100)
        = some (PyVal.int 5)
    ∧ dictContains (asDict (dictGetD (snapParts (okSnap wA)) (PyKey.int 100)
        (PyVal.dict []))) (PyKey.str "count") = false
    ∧ dictGet? (asDict (dictGetD (snapParts (okSnap wA)) (PyKey.int 100)
        (PyVal.dict []))) (PyKey.str "title") = some (PyVal.str "Part B") :=
  ⟨rfl, rfl, rfl, rfl⟩

/-- C6: given a decoded response, `_fetch_json` raises exactly when the
status field is not `"OK"`, the raised error carries the unexpected status
value (and nothing else is ever raised for a decoded response), and a run
whose crawl raises produces no output document at all. -/
theorem fetch_status_error_iff :
    ∀ (α : Type) (r : Request) (d : Resp α) (w : World) (e : FetchErr),
      ((fetch_json r (Outcome.response d)).2
          = Except.error (FetchErr.badStatus d.status) ↔ d.status ≠ "OK")
      ∧ (∀ e2, (fetch_json r (Outcome.response d)).2 = Except.error e2 →
           e2 = FetchErr.badStatus d.status)
      ∧ ((download_construction_kits w).2 = Except.error e →
           mainOutput w = Option.none) := by
  intro α r d w e
  refine ⟨⟨?_, ?_⟩, ?_, ?_⟩
  · intro h hs
    simp only [fetch_json] at h
    rw [if_neg (fun hc => hc hs)] at h
    exact absurd h (by simp)
  · intro hs
    simp only [fetch_json]
    rw [if_pos hs]
  · intro e2 h2
    simp only [fetch_json] at h2
    by_cases hs : d.status = "OK"
    · rw [if_neg (fun hc => hc hs)] at h2
      exact absurd h2 (by simp)
    · rw [if_pos hs] at h2
      have h3 : Except.error (FetchErr.badStatus d.status) = Except.error e2 := h2
      cases h3
      rfl
  · intro h2
    unfold mainOutput
    rw [h2]

/-- Witness for C6 at a concrete bad-status response and at the world
`wBad` whose listing page 2 reports `"ERROR"`: the fetch raises the
status-carrying error and the run writes nothing. -/
theorem fetch_status_error_iff_witness :
    (fetch_json Request.listingBase
        (Outcome.response (⟨"ERROR", 2, 0, ([] : List RawRecord)⟩
          : Resp (List RawRecord)))).2
        = Except.error (FetchErr.badStatus "ERROR")
    ∧ mainOutput wBad = Option.none :=
  ⟨(fetch_status_error_iff (List RawRecord) Request.listingBase
      ⟨"ERROR", 2, 0, []⟩ wBad (FetchErr.badStatus "ERROR")).1.mpr (by decide),
   (fetch_status_error_iff (List RawRecord) Request.listingBase
      ⟨"ERROR", 2, 0, []⟩ wBad (FetchErr.badStatus "ERROR")).2.2 rfl⟩

/-- C7: article-number normalization — a missing/`None` payload and the
literal `"[]"` payload give an empty mapping; a decoded pair sequence
becomes a dict whose `None` number keys are coerced to `""`; in
particular a single `(null, year)` pair yields exactly the entry
`"" ↦ year`, never a dropped entry. -/
theorem article_numbers_normalization :
    ∀ d : RawRecord,
      (d.ft_article_nos = Option.none → parse_article_nos d = [])
      ∧ (d.ft_article_nos = some ArtNos.emptyLit → parse_article_nos d = [])
      ∧ (∀ ps, d.ft_article_nos = some (ArtNos.pairs ps) →
           parse_article_nos d
             = pyDictOf (ps.map (fun p => (PyKey.str (p.1.getD ""),
                 PyVal.str p.2))))
      ∧ (∀ y, d.ft_article_nos = some (ArtNos.pairs [(Option.none, y)]) →
           parse_article_nos d = [(PyKey.str "", PyVal.str y)]) := by
  intro d
  refine ⟨?_, ?_, ?_, ?_⟩
  · intro h
    unfold parse_article_nos
    rw [h]
  · intro h
    unfold parse_article_nos
    rw [h]
  · intro ps h
    unfold parse_article_nos
    rw [h]
  · intro y h
    unfold parse_article_nos
    rw [h]
    rfl

/-- Witness for C7 at concrete records: one with no article numbers, one
with the literal `"[]"`, one with a single null-numbered pair. -/
theorem article_numbers_normalization_witness :
    parse_article_nos recK10d = []
    ∧ parse_article_nos recArtEmpty = []
    ∧ parse_article_nos recNullArt = [(PyKey.str "", PyVal.str "1980")] :=
  ⟨(article_numbers_normalization recK10d).1 rfl,
   (article_numbers_normalization recArtEmpty).2.1 rfl,
   (article_numbers_normalization recNullArt).2.2.2 "1980" rfl⟩

/-- C5: in every snapshot a successful crawl returns, every part id used
as a key in any kit's `parts` mapping is also a key of the shared
`parts` table. -/
theorem kit_part_ids_in_shared_registry :
    ∀ (w : World) (snap : PyVal),
      (download_construction_kits w).2 = Except.ok snap →
      ∀ tk pid, pid ∈ dictKeys (kitParts snap tk) →
        pid ∈ dictKeys (snapParts snap) := by
  intro w snap h tk pid hpid
  rcases download_ok_inv h with ⟨d0, _, _, ks, hks, pr, hpr, hsnap⟩
  subst hsnap
  rw [snapParts_mk]
  have hkp : kitParts (PyVal.dict [(PyKey.str "kits", PyVal.dict pr.1),
        (PyKey.str "parts", PyVal.dict pr.2)]) tk
      = asDict (dictGetD (asDict (dictGetD pr.1 tk (PyVal.dict [])))
          (PyKey.str "parts") (PyVal.dict [])) := by
    unfold kitParts
    rw [snapKits_mk]
  rw [hkp] at hpid
  cases hget : dictGet? pr.1 tk with
  | none =>
      rw [show dictGetD pr.1 tk (PyVal.dict []) = PyVal.dict [] from by
        unfold dictGetD; rw [hget]; rfl] at hpid
      exact absurd hpid (List.not_mem_nil _)
  | some v =>
      have hmem : (tk, v) ∈ pr.1 := dictGet?_mem hget
      obtain ⟨_, _, K3, _⟩ := kitsPartsLoop_ok w ks [] pr hpr
      rcases K3 (tk, v) hmem with ⟨e, hee, _, hval⟩
      rcases listingPagesLoop_ok w _ [] ks hks e hee with
        h0 | ⟨_, _, _, _, _, _, d, _, hechar⟩
      · exact absurd h0 (List.not_mem_nil _)
      · have hpe : entryPartsKeys e.2 = [] := by
          rw [hechar]
          exact kit_fresh_parts_empty d.results
        rw [show dictGetD pr.1 tk (PyVal.dict []) = v from by
          unfold dictGetD; rw [hget]; rfl] at hpid
        rcases hval with h1 | ⟨_, h2⟩
        · have hpid2 : pid ∈ entryPartsKeys e.2 := by
            rw [← h1]
            exact hpid
          rw [hpe] at hpid2
          exact absurd hpid2 (List.not_mem_nil _)
        · rcases h2 pid hpid with h3 | h3
          · rw [hpe] at h3
            exact absurd h3 (List.not_mem_nil _)
          · exact h3

/-- Witness for C5 at `wA`: part id 100 is used by kit 10's parts mapping
and, by the theorem, is present in the shared parts table. -/
theorem kit_part_ids_in_shared_registry_witness :
    (download_construction_kits wA).2 = Except.ok (okSnap wA)
    ∧ PyKey.int 100 ∈ dictKeys (kitParts (okSnap wA) (PyKey.int 10))
    ∧ PyKey.int 100 ∈ dictKeys (snapParts (okSnap wA)) :=
  ⟨rfl, by decide,
   kit_part_ids_in_shared_registry wA (okSnap wA) rfl (PyKey.int 10)
     (PyKey.int 100) (by decide)⟩

/-- C8: a kit whose parts-total probe reports 0 is skipped without error:
only the probe request is issued for it (no part page), its stored value
is passed through unchanged, and — by the second part — a kit coming out
of the listing phase has an empty `parts` dict, so its mapping stays
empty. -/
theorem zero_total_skips_pages :
    (∀ (w : World) (reg : PyDict) (tk : PyKey) (ckv : PyVal)
       (rest : List (PyKey × PyVal)) (d : Resp (List RawRecord)),
       w.partsProbe tk = Outcome.response d → d.status = "OK" → d.cTotal = 0 →
       (kitsPartsLoop w reg ((tk, ckv) :: rest)).1
           = Request.partsProbe tk :: (kitsPartsLoop w reg rest).1
       ∧ (kitsPartsLoop w reg ((tk, ckv) :: rest)).2
           = (match (kitsPartsLoop w reg rest).2 with
              | Except.ok pr => Except.ok ((tk, ckv) :: pr.1, pr.2)
              | Except.error e => Except.error e))
    ∧ (∀ (w : World) (pages : List Nat) (kits0 ks : PyDict),
        (listingPagesLoop w kits0 pages).2 = Except.ok ks →
        ∀ e ∈ ks, e ∈ kits0
          ∨ dictGet? (asDict e.2) (PyKey.str "parts")
              = some (PyVal.dict [])) := by
  constructor
  · intro w reg tk ckv rest d hw hOK hz
    have hfetch : fetch_json (Request.partsProbe tk) (w.partsProbe tk)
        = ([Request.partsProbe tk], Except.ok d) := by
      rw [hw]
      simp only [fetch_json]
      rw [if_neg (fun hc => hc hOK)]
    have hunf : kitsPartsLoop w reg ((tk, ckv) :: rest)
        = ([Request.partsProbe tk]
             ++ (mBind (kitsPartsLoop w reg rest)
                  (fun pr => mPure ((tk, ckv) :: pr.1, pr.2))).1,
           (mBind (kitsPartsLoop w reg rest)
              (fun pr => mPure ((tk, ckv) :: pr.1, pr.2))).2) := by
      rw [kitsPartsLoop]
      rw [hfetch, mBind_pure_ok, if_pos hz]
    rw [hunf]
    constructor
    · show [Request.partsProbe tk]
          ++ (mBind (kitsPartsLoop w reg rest)
               (fun pr => mPure ((tk, ckv) :: pr.1, pr.2))).1
        = Request.partsProbe tk :: (kitsPartsLoop w reg rest).1
      rw [mBind_trace]
      cases hres : (kitsPartsLoop w reg rest).2 <;> simp [mPure]
    · show (mBind (kitsPartsLoop w reg rest)
          (fun pr => mPure ((tk, ckv) :: pr.1, pr.2))).2
        = _
      unfold mBind
      cases hres : (kitsPartsLoop w reg rest).2 <;> simp [mPure]
  · intro w pages kits0 ks h e he
    rcases listingPagesLoop_ok w pages kits0 ks h e he with
      h0 | ⟨_, _, _, _, _, _, d, _, hechar⟩
    · exact Or.inl h0
    · right
      rw [hechar]
      exact kit_dict_parts d.results

/-- Witness for C8 at `wZero` (kit 30 reports a parts total of 0): only
the probe is traced for the kit, and every kit from the listing phase has
an empty `parts` dict. -/
theorem zero_total_skips_pages_witness :
    ((kitsPartsLoop wZero [] [(PyKey.int 30, PyVal.none)]).1
        = Request.partsProbe (PyKey.int 30)
            :: (kitsPartsLoop wZero [] ([] : List (PyKey × PyVal))).1)
    ∧ (∀ e ∈ phase1Zero, e ∈ ([] : PyDict)
        ∨ dictGet? (asDict e.2) (PyKey.str "parts") = some (PyVal.dict [])) :=
  ⟨(zero_total_skips_pages.1 wZero [] (PyKey.int 30) PyVal.none []
      ⟨"OK", 0, 0, []⟩ rfl rfl rfl).1,
   zero_total_skips_pages.2 wZero [1] [] phase1Zero rfl⟩

/-- C9: if the ticket-detail endpoint is consistent (the returned record
carries the requested id) and on every listing page each record with
ticket id `t661` lists category `661`, then `t661` never becomes a key of
the assembled snapshot's kits table — category-661 tickets are omitted. -/
theorem category_661_excluded :
    ∀ (w : World) (t661 : Int) (snap : PyVal),
      (∀ t d, w.detail t = Outcome.response d → d.results.ticket_id = t) →
      (∀ i resp, w.listingPage i = Outcome.response resp →
         ∀ rec ∈ resp.results, rec.ticket_id = t661 →
           "661" ∈ rec.ft_cat_all) →
      (download_construction_kits w).2 = Except.ok snap →
      PyKey.int t661 ∉ dictKeys (snapKits snap) := by
  intro w t661 snap hcons h661 h hmem
  rcases download_ok_inv h with ⟨d0, _, _, ks, hks, pr, hpr, hsnap⟩
  subst hsnap
  rw [snapKits_mk] at hmem
  obtain ⟨K1, _, _, _⟩ := kitsPartsLoop_ok w ks [] pr hpr
  have hmem2 : PyKey.int t661 ∈ dictKeys ks := by
    unfold dictKeys at hmem ⊢
    rw [← K1]
    exact hmem
  rcases List.mem_map.mp hmem2 with ⟨e, he, hkey⟩
  rcases listingPagesLoop_ok w _ [] ks hks e he with
    h0 | ⟨i, _, resp, hresp, t, ht, d, hd, hechar⟩
  · exact absurd h0 (List.not_mem_nil _)
  · have hid : d.results.ticket_id = t := hcons t d hd
    have h3 : PyKey.int d.results.ticket_id = PyKey.int t661 := by
      rw [hechar] at hkey
      exact hkey
    have h4 : d.results.ticket_id = t661 := by
      injection h3
    have ht661 : t = t661 := hid.symm.trans h4
    subst ht661
    unfold parse_construction_kit_ids at ht
    rcases List.mem_map.mp ht with ⟨rec, hrecmem, hrecid⟩
    have hfil := List.mem_filter.mp hrecmem
    have hc : "661" ∉ rec.ft_cat_all := by
      intro hcm
      have h7 : rec.ft_cat_all.elem "661" = true := List.elem_iff.mpr hcm
      have h5 : (!(rec.ft_cat_all.contains "661")) = true := hfil.2
      rw [show rec.ft_cat_all.contains "661" = rec.ft_cat_all.elem "661"
        from rfl, h7] at h5
      exact absurd h5 (by decide)
    exact hc (h661 i resp hresp rec hfil.1 hrecid)

/-- Witness for C9 at `w661` (ticket 41 lists category 661 next to kit
40): the snapshot's kits exclude key 41. -/
theorem category_661_excluded_witness :
    PyKey.int 41 ∉ dictKeys (snapKits (okSnap w661)) := by
  refine category_661_excluded w661 41 (okSnap w661) ?_ ?_ rfl
  · intro t dd hd
    have hdet : w661.detail t
        = if t = 40 then
            Outcome.response (⟨"OK", 0, 0, recK40d⟩ : Resp RawRecord)
          else Outcome.transport := rfl
    rw [hdet] at hd
    by_cases ht : t = 40
    · rw [if_pos ht] at hd
      cases hd
      rw [ht]
      rfl
    · rw [if_neg ht] at hd
      exact Outcome.noConfusion hd
  · intro i resp hresp rec hrec hid
    have hlp : w661.listingPage i
        = if i = 1 then
            Outcome.response
              (⟨"OK", 1, 2, [recK40, recK41]⟩ : Resp (List RawRecord))
          else Outcome.transport := rfl
    rw [hlp] at hresp
    by_cases hi : i = 1
    · rw [if_pos hi] at hresp
      cases hresp
      have hrec2 : rec ∈ [recK40, recK41] := hrec
      rcases List.mem_cons.mp hrec2 with h1 | h1
      · rw [h1] at hid
        exact absurd hid (by decide)
      · rcases List.mem_cons.mp h1 with h2 | h2
        · rw [h2]
          decide
        · exact absurd h2 (List.not_mem_nil _)
    · rw [if_neg hi] at hresp
      exact Outcome.noConfusion hresp

/-- C10: in every snapshot a successful crawl returns, both tables are
keyed by their records' own ids: the record stored under any key is a
dict whose `id` field is the integer that key wraps. -/
theorem snapshot_tables_keyed_by_id :
    ∀ (w : World) (snap : PyVal),
      (download_construction_kits w).2 = Except.ok snap →
      (∀ tk ∈ dictKeys (snapKits snap), ∃ i, tk = PyKey.int i ∧
         dictGet? (asDict (dictGetD (snapKits snap) tk (PyVal.dict [])))
           (PyKey.str "id") = some (PyVal.int i))
      ∧ (∀ pk ∈ dictKeys (snapParts snap), ∃ i, pk = PyKey.int i ∧
         dictGet? (asDict (dictGetD (snapParts snap) pk (PyVal.dict [])))
           (PyKey.str "id") = some (PyVal.int i)) := by
  intro w snap h
  rcases download_ok_inv h with ⟨d0, _, _, ks, hks, pr, hpr, hsnap⟩
  subst hsnap
  rw [snapKits_mk, snapParts_mk]
  obtain ⟨_, _, K3, K4⟩ := kitsPartsLoop_ok w ks [] pr hpr
  constructor
  · intro tk htk
    rcases mem_keys_dictGet? htk with ⟨v, hget, hmem⟩
    have hGD : dictGetD pr.1 tk (PyVal.dict []) = v := by
      unfold dictGetD
      rw [hget]
      rfl
    rw [hGD]
    rcases K3 (tk, v) hmem with ⟨e, hee, hkey, hval⟩
    rcases listingPagesLoop_ok w _ [] ks hks e hee with
      h0 | ⟨_, _, _, _, _, _, d, _, hechar⟩
    · exact absurd h0 (List.not_mem_nil _)
    · have hkeyi : e.1 = PyKey.int d.results.ticket_id := by
        rw [hechar]
      have hide : dictGet? (asDict e.2) (PyKey.str "id")
          = some (PyVal.int d.results.ticket_id) := by
        rw [hechar]
        exact kit_dict_id d.results
      refine ⟨d.results.ticket_id, ?_, ?_⟩
      · have htke : tk = e.1 := hkey
        rw [htke, hkeyi]
      · rcases hval with h1 | ⟨h2, _⟩
        · show dictGet? (asDict v) (PyKey.str "id") = _
          have hv : v = e.2 := h1
          rw [hv]
          exact hide
        · show dictGet? (asDict v) (PyKey.str "id") = _
          have h2v : dictGet? (asDict v) (PyKey.str "id")
              = dictGet? (asDict e.2) (PyKey.str "id") := h2
          rw [h2v]
          exact hide
  · intro pk hpk
    rcases mem_keys_dictGet? hpk with ⟨v, hget, hmem⟩
    have hGD : dictGetD pr.2 pk (PyVal.dict []) = v := by
      unfold dictGetD
      rw [hget]
      rfl
    rw [hGD]
    rcases K4 (pk, v) hmem with h0 | hik
    · exact absurd h0 (List.not_mem_nil _)
    · unfold idKeyedEntry at hik
      exact hik

/-- Witness for C10 at `wA`: kit key 10 and part key 100 both match the
`id` stored in their records. -/
theorem snapshot_tables_keyed_by_id_witness :
    (∃ i, PyKey.int 10 = PyKey.int i ∧
       dictGet? (asDict (dictGetD (snapKits (okSnap wA)) (PyKey.int 10)
         (PyVal.dict []))) (PyKey.str "id") = some (PyVal.int i))
    ∧ (∃ i, PyKey.int 100 = PyKey.int i ∧
       dictGet? (asDict (dictGetD (snapParts (okSnap wA)) (PyKey.int 100)
         (PyVal.dict []))) (PyKey.str "id") = some (PyVal.int i)) :=
  ⟨(snapshot_tables_keyed_by_id wA (okSnap wA) rfl).1 (PyKey.int 10) (by decide),
   (snapshot_tables_keyed_by_id wA (okSnap wA) rfl).2 (PyKey.int 100) (by decide)⟩
